import Mathlib

/-!
Verification development for the fmmap repository (mapped-file lifecycle and
bounded range I/O). The definitions below shallowly embed the code of
`src/fmmap-rs/src/disk/tokio_impl.rs`: external system calls (file open,
set-length, metadata, the mapping calls, directory sync, file removal) are
modelled by an environment of oracles that decide whether each call fails,
and every embedded operation returns the filesystem state, the trace of
external calls it performed, and its result. Parts of the repository that
are referenced by the source but whose own code is not under `src/`
(the error module, the utils helpers, `remmap`, the flush macro, the memory
backed variant, and the Range I/O Engine) are modelled from the spec; each
such definition carries a doc comment saying so.
-/

/-- An opaque underlying I/O failure, as carried by the external calls. -/
structure IOError where
  msg : String
deriving DecidableEq, Repr

/-- Modelled from the spec: the error module is not under src/. Error kinds
per spec section 7: OpenFailed, MmapFailed, TruncationFailed, the I/O kind
for handle length-set / flush / delete failures not covered by the others,
and Bounds for range violations. The payload shapes follow the uses in
`tokio_impl.rs` (String messages for the first three, the raw cause for the
I/O kind). The source spells the I/O kind IO; here it is Io, since IO is a
reserved namespace in Lean. -/
inductive Error where
  | OpenFailed (msg : String)
  | MmapFailed (msg : String)
  | TruncationFailed (msg : String)
  | Io (cause : IOError)
  | Bounds (requested available : Nat)
deriving DecidableEq, Repr

/-- The kind of an error, forgetting payloads. -/
inductive ErrorKind where
  | openFailedKind
  | mmapFailedKind
  | truncationFailedKind
  | ioKind
  | boundsKind
deriving DecidableEq, Repr

def ioError (e : IOError) : Error := Error.Io e

def Error.kind : Error → ErrorKind
  | Error.OpenFailed _ => ErrorKind.openFailedKind
  | Error.MmapFailed _ => ErrorKind.mmapFailedKind
  | Error.TruncationFailed _ => ErrorKind.truncationFailedKind
  | Error.Io _ => ErrorKind.ioKind
  | Error.Bounds _ _ => ErrorKind.boundsKind

/-- Modelled from the spec: the error module is not under src/. The
conversion from a raw I/O error used by the Rust question-mark operator:
it produces the I/O kind, the kind that carries an underlying cause with no
path or range context (spec section 7 lists the I/O kind as the catch-all
for causes not covered by the named kinds; the same conversion serves the
metadata call and the mapping call in `open_exist_in`, so it cannot
special-case either call site). -/
def errorFromRaw (e : IOError) : Error := ioError e

/-- The flag set of a handle-open request, as issued to the external file
open call (read, write, append, create, truncate-on-open). -/
structure OpenRequest where
  readFlag : Bool
  writeFlag : Bool
  appendFlag : Bool
  createFlag : Bool
  truncFlag : Bool
deriving DecidableEq, Repr

/-- `File::open` (tokio / std): opens read-only, must-exist. -/
def readOnlyRequest : OpenRequest :=
  ⟨true, false, false, false, false⟩

/-- Modelled from the spec: `create_file_async` is in the utils module, not
under src/. Spec 4.1: create "creates (truncating if pre-existing) the
Backing Handle", so the request is read-write with create and truncate. -/
def createRequest : OpenRequest :=
  ⟨true, true, false, true, true⟩

/-- Modelled from the spec: `open_exist_file_with_append_async` is in the
utils module, not under src/. Spec 4.1: open_existing_append "opens a handle
guaranteeing append-safety semantics at the filesystem level", so the
request is read-write with the append flag. -/
def appendRequest : OpenRequest :=
  ⟨true, true, true, false, false⟩

/-- The mode requested from the mapping call. -/
inductive MapMode where
  | readOnlyMap
  | readWriteMap
  | cowMap
  | execMap
deriving DecidableEq, Repr

/-- The mode tag of a mutable mapped file (`disk::MmapFileMutType`). -/
inductive MmapFileMutType where
  | Normal
  | Cow
deriving DecidableEq, Repr

/-- The mapping mode used by remmap for a given mode tag (spec 4.1 step 4:
Normal uses map_mut, Copy-on-Write uses map_copy). -/
def MmapFileMutType.mapMode : MmapFileMutType → MapMode
  | MmapFileMutType.Normal => MapMode.readWriteMap
  | MmapFileMutType.Cow => MapMode.cowMap

/-- A backing file handle: the path it was opened at and the access flags it
was opened with. -/
structure FileHandle where
  hpath : String
  writable : Bool
  appendMode : Bool
deriving DecidableEq, Repr

/-- Platform hint flags of `memmap2::MmapOptions` (huge pages, populate and
the like); their content never influences the control flow embedded here. -/
structure MmapOptions where
  hintFlags : Nat
deriving DecidableEq, Repr

/-- `AsyncOptions`: the mapping options, the file-open options and the
max-size hint (0 means no preallocation). -/
structure AsyncOptions where
  mmap_opts : MmapOptions
  file_opts : OpenRequest
  max_size : Nat
deriving DecidableEq, Repr

/-- The filesystem: an association list from paths to byte contents. -/
structure FileSys where
  files : List (String × List Nat)
deriving DecidableEq, Repr

def FileSys.lookup (fs : FileSys) (p : String) : Option (List Nat) :=
  (fs.files.find? (fun kv => kv.1 == p)).map (fun kv => kv.2)

/-- The length of the file at `p` (0 if absent). -/
def FileSys.lenAt (fs : FileSys) (p : String) : Nat :=
  ((fs.lookup p).getD []).length

/-- Contents of the file at `p` ([] if absent). -/
def FileSys.contentsAt (fs : FileSys) (p : String) : List Nat :=
  (fs.lookup p).getD []

/-- Resize a byte list: keep the first `n` bytes, zero-pad up to `n`. -/
def resizeBytes (bs : List Nat) (n : Nat) : List Nat :=
  bs.take n ++ List.replicate (n - bs.length) 0

def FileSys.store (fs : FileSys) (p : String) (bs : List Nat) : FileSys :=
  ⟨(p, bs) :: fs.files.filter (fun kv => kv.1 != p)⟩

/-- The set-length operation of the backing handle, applied to the
filesystem: the file at `p` is truncated or zero-extended to `n`. -/
def FileSys.setLen (fs : FileSys) (p : String) (n : Nat) : FileSys :=
  fs.store p (resizeBytes (fs.contentsAt p) n)

/-- Delete the entry at `p`. -/
def FileSys.erase (fs : FileSys) (p : String) : FileSys :=
  ⟨fs.files.filter (fun kv => kv.1 != p)⟩

/-- The environment of external calls: for each fallible external call an
oracle decides whether it fails and with which underlying error. -/
structure Env where
  openErr : String → OpenRequest → Option IOError
  metadataErr : String → Option IOError
  setLenErr : String → Nat → Option IOError
  mapErr : MapMode → Option IOError
  flushErr : String → Option IOError
  syncDirErr : String → Option IOError
  removeErr : String → Option IOError

/-- The trace of external calls an embedded operation performs, in order. -/
inductive Event where
  | openHandle (path : String) (req : OpenRequest)
  | metadata (path : String)
  | setLen (path : String) (n : Nat)
  | syncDir (dir : String)
  | mapCall (path : String) (mode : MapMode) (len : Nat)
  | unmap
  | flushData (path : String)
  | dropHandle (path : String)
  | removePath (path : String)
deriving DecidableEq, Repr

/-- The outcome of an embedded operation: the filesystem afterwards, the
trace of external calls performed (attempted calls included), and the
result or error. -/
structure Res (α : Type) where
  fs : FileSys
  trace : List Event
  val : Except Error α
deriving Repr

/-- The message built for OpenFailed, following the format string
in the source ("path: .., err: .."). -/
def openMsg (path : String) (e : IOError) : String :=
  "path: " ++ path ++ ", err: " ++ e.msg

/-- The message built for TruncationFailed, following the format string in
the source ("path: .., err: .."). -/
def truncationMsg (path : String) (e : IOError) : String :=
  "path: " ++ path ++ ", err: " ++ e.msg

/-- The parent directory of a path (text up to the last slash); only used
as the argument recorded in directory-sync events. -/
def parentDir (p : String) : String :=
  String.intercalate "/" ((p.splitOn "/").dropLast)

/-- `AsyncDiskMmapFile`: immutable mmap buffer plus a read-only file. -/
structure AsyncDiskMmapFile where
  mmap : List Nat
  file : FileHandle
  path : String
  exec : Bool
deriving DecidableEq, Repr

/-- `AsyncDiskMmapFileMut`: mutable mmap buffer, the file handle, the path,
the retained mapping options and the mode tag. -/
structure AsyncDiskMmapFileMut where
  mmap : List Nat
  file : FileHandle
  path : String
  opts : Option MmapOptions
  typ : MmapFileMutType
deriving DecidableEq, Repr

/-- The raw external mapping call over a handle: maps the current contents
of the backing file in the requested mode; failure is decided by the
environment and returned as the raw I/O error, to be wrapped by the caller
exactly as the source wraps it at each call site. -/
def mapFileRaw (env : Env) (fs : FileSys) (file : FileHandle) (mode : MapMode) :
    List Event × Except IOError (List Nat) :=
  ([Event.mapCall file.hpath mode (fs.lenAt file.hpath)],
    match env.mapErr mode with
    | some e => Except.error e
    | none => Except.ok (fs.contentsAt file.hpath))

/-- `is_cow` from `AsyncMmapFileMutExt for AsyncDiskMmapFileMut`: true
exactly when the mode tag matches `MmapFileMutType::Cow`. -/
def AsyncDiskMmapFileMut.is_cow (st : AsyncDiskMmapFileMut) : Bool :=
  st.typ == MmapFileMutType.Cow

/-- Modelled from the spec: the flush macro body is not under src/. Spec
section 4.2: flush forces the mapped pages back to the Backing Handle;
spec section 7 lists flush failures under the I/O kind. -/
def AsyncDiskMmapFileMut.flush (env : Env) (st : AsyncDiskMmapFileMut) :
    List Event × Except Error Unit :=
  ([Event.flushData st.file.hpath],
    match env.flushErr st.file.hpath with
    | some e => Except.error (ioError e)
    | none => Except.ok ())

/-- Modelled from the spec: `disk::remmap` is not under src/. Spec 4.1
step 4: recreate the region over the resized handle using the stored
options and mode tag (Normal uses map_mut, Copy-on-Write uses map_copy),
producing a region of exactly the current handle length; a failed mapping
call is the MmapFailed kind. -/
def remmap (env : Env) (fs : FileSys) (file : FileHandle)
    (_opts : Option MmapOptions) (typ : MmapFileMutType) :
    List Event × Except Error (List Nat) :=
  match mapFileRaw env fs file typ.mapMode with
  | (t, Except.error e) => (t, Except.error (Error.MmapFailed e.msg))
  | (t, Except.ok bytes) => (t, Except.ok bytes)

/-- `truncate` for targets other than linux: flush when the mapped length
is nonzero, unmap, set the handle length (TruncationFailed on error, with
path and cause), remap via `remmap`, install the new region. -/
def AsyncDiskMmapFileMut.truncateNotLinux (env : Env) (fs : FileSys)
    (st : AsyncDiskMmapFileMut) (max_sz : Nat) : Res AsyncDiskMmapFileMut :=
  let flushStep : List Event × Except Error Unit :=
    if 0 < st.mmap.length then AsyncDiskMmapFileMut.flush env st
    else ([], Except.ok ())
  match flushStep with
  | (t1, Except.error e) => ⟨fs, t1, Except.error e⟩
  | (t1, Except.ok _) =>
    let t2 := t1 ++ [Event.unmap, Event.setLen st.file.hpath max_sz]
    match env.setLenErr st.file.hpath max_sz with
    | some e =>
      ⟨fs, t2, Except.error (Error.TruncationFailed (truncationMsg st.path e))⟩
    | none =>
      let fs1 := fs.setLen st.file.hpath max_sz
      match remmap env fs1 st.file st.opts st.typ with
      | (t3, Except.error e) => ⟨fs1, t2 ++ t3, Except.error e⟩
      | (t3, Except.ok bytes) => ⟨fs1, t2 ++ t3, Except.ok { st with mmap := bytes }⟩

/-- `truncate` for linux: flush unconditionally, set the handle length
(TruncationFailed on error, with path and cause), remap via `remmap`
without an explicit unmap. -/
def AsyncDiskMmapFileMut.truncateLinux (env : Env) (fs : FileSys)
    (st : AsyncDiskMmapFileMut) (max_sz : Nat) : Res AsyncDiskMmapFileMut :=
  match AsyncDiskMmapFileMut.flush env st with
  | (t1, Except.error e) => ⟨fs, t1, Except.error e⟩
  | (t1, Except.ok _) =>
    let t2 := t1 ++ [Event.setLen st.file.hpath max_sz]
    match env.setLenErr st.file.hpath max_sz with
    | some e =>
      ⟨fs, t2, Except.error (Error.TruncationFailed (truncationMsg st.path e))⟩
    | none =>
      let fs1 := fs.setLen st.file.hpath max_sz
      match remmap env fs1 st.file st.opts st.typ with
      | (t3, Except.error e) => ⟨fs1, t2 ++ t3, Except.error e⟩
      | (t3, Except.ok bytes) => ⟨fs1, t2 ++ t3, Except.ok { st with mmap := bytes }⟩

/-- `remove`: drop the mapping, set the handle length to zero, drop the
handle, delete the path; the fallible steps surface the raw cause through
the I/O error kind. -/
def AsyncDiskMmapFileMut.remove (env : Env) (fs : FileSys)
    (st : AsyncDiskMmapFileMut) : Res Unit :=
  let t1 := [Event.unmap, Event.setLen st.file.hpath 0]
  match env.setLenErr st.file.hpath 0 with
  | some e => ⟨fs, t1, Except.error (ioError e)⟩
  | none =>
    let fs1 := fs.setLen st.file.hpath 0
    let t2 := t1 ++ [Event.dropHandle st.file.hpath, Event.removePath st.path]
    match env.removeErr st.path with
    | some e => ⟨fs1, t2, Except.error (ioError e)⟩
    | none => ⟨fs1.erase st.path, t2, Except.ok ()⟩

/-- `close_with_truncate`: flush, drop the mapping, and when the signed
target size is nonnegative set the handle length to it and sync the parent
directory; a negative target skips both. Length-set and directory-sync
failures surface through the I/O kind (the directory sync helper is not
under src/ and its error kind is modelled from spec section 7). -/
def AsyncDiskMmapFileMut.close_with_truncate (env : Env) (fs : FileSys)
    (st : AsyncDiskMmapFileMut) (max_sz : Int) : Res Unit :=
  match AsyncDiskMmapFileMut.flush env st with
  | (t1, Except.error e) => ⟨fs, t1, Except.error e⟩
  | (t1, Except.ok _) =>
    let t2 := t1 ++ [Event.unmap]
    if 0 ≤ max_sz then
      let n := max_sz.toNat
      let t3 := t2 ++ [Event.setLen st.file.hpath n]
      match env.setLenErr st.file.hpath n with
      | some e => ⟨fs, t3, Except.error (ioError e)⟩
      | none =>
        let fs1 := fs.setLen st.file.hpath n
        let parent := parentDir st.path
        let t4 := t3 ++ [Event.syncDir parent]
        match env.syncDirErr parent with
        | some e => ⟨fs1, t4, Except.error (ioError e)⟩
        | none => ⟨fs1, t4, Except.ok ()⟩
    else ⟨fs, t2, Except.ok ()⟩

/-- The preallocation step shared by `create_in`, `open_exist_in` and
`open_cow_in`: set the handle length (TruncationFailed with path and cause
on error) and sync the parent directory. -/
def preallocate (env : Env) (fs : FileSys) (path : String) (sz : Nat) :
    FileSys × List Event × Except Error Unit :=
  match env.setLenErr path sz with
  | some e =>
    (fs, [Event.setLen path sz],
      Except.error (Error.TruncationFailed (truncationMsg path e)))
  | none =>
    let fs1 := fs.setLen path sz
    let t := [Event.setLen path sz, Event.syncDir (parentDir path)]
    match env.syncDirErr (parentDir path) with
    | some e => (fs1, t, Except.error (ioError e))
    | none => (fs1, t, Except.ok ())

/-- `AsyncDiskMmapFile::open_in`: open the handle read-only (the read-only
open helper is in the utils module; modelled from the spec as a read-only
must-exist request), then map read-only; a failed mapping call is wrapped
as MmapFailed via the explicit map_err in the source. The two option
branches of the source issue the same modelled mapping call, since the
mapping options carry only platform hints. -/
def AsyncDiskMmapFile.open_in (env : Env) (fs : FileSys) (path : String)
    (_opts : Option AsyncOptions) : Res AsyncDiskMmapFile :=
  let req := readOnlyRequest
  match env.openErr path req with
  | some e =>
    ⟨fs, [Event.openHandle path req],
      Except.error (Error.OpenFailed (openMsg path e))⟩
  | none =>
    let file : FileHandle := ⟨path, req.writeFlag, req.appendFlag⟩
    match mapFileRaw env fs file MapMode.readOnlyMap with
    | (t, Except.error e) =>
      ⟨fs, Event.openHandle path req :: t,
        Except.error (Error.MmapFailed e.msg)⟩
    | (t, Except.ok bytes) =>
      ⟨fs, Event.openHandle path req :: t,
        Except.ok ⟨bytes, file, path, false⟩⟩

/-- `AsyncDiskMmapFile::open_exec_in`: open the handle read-only, then map
read-execute; a failed mapping call is wrapped as MmapFailed via the
explicit map_err in the source. -/
def AsyncDiskMmapFile.open_exec_in (env : Env) (fs : FileSys) (path : String)
    (_opts : Option AsyncOptions) : Res AsyncDiskMmapFile :=
  let req := readOnlyRequest
  match env.openErr path req with
  | some e =>
    ⟨fs, [Event.openHandle path req],
      Except.error (Error.OpenFailed (openMsg path e))⟩
  | none =>
    let file : FileHandle := ⟨path, req.writeFlag, req.appendFlag⟩
    match mapFileRaw env fs file MapMode.execMap with
    | (t, Except.error e) =>
      ⟨fs, Event.openHandle path req :: t,
        Except.error (Error.MmapFailed e.msg)⟩
    | (t, Except.ok bytes) =>
      ⟨fs, Event.openHandle path req :: t,
        Except.ok ⟨bytes, file, path, true⟩⟩

/-- `AsyncDiskMmapFileMut::create_in`: create the handle (truncating any
pre-existing file), preallocate to max_size when options carry a nonzero
max_size (with a directory sync), then map read-write; a failed mapping
call is wrapped as MmapFailed via the explicit map_err in the source; the
mode tag is Normal. -/
def AsyncDiskMmapFileMut.create_in (env : Env) (fs : FileSys) (path : String)
    (opts : Option AsyncOptions) : Res AsyncDiskMmapFileMut :=
  let req := createRequest
  match env.openErr path req with
  | some e =>
    ⟨fs, [Event.openHandle path req],
      Except.error (Error.OpenFailed (openMsg path e))⟩
  | none =>
    let file : FileHandle := ⟨path, req.writeFlag, req.appendFlag⟩
    let fs0 := fs.store path []
    match opts with
    | none =>
      match mapFileRaw env fs0 file MapMode.readWriteMap with
      | (t, Except.error e) =>
        ⟨fs0, Event.openHandle path req :: t,
          Except.error (Error.MmapFailed e.msg)⟩
      | (t, Except.ok bytes) =>
        ⟨fs0, Event.openHandle path req :: t,
          Except.ok ⟨bytes, file, path, none, MmapFileMutType.Normal⟩⟩
    | some o =>
      let pre : FileSys × List Event × Except Error Unit :=
        if 0 < o.max_size then preallocate env fs0 path o.max_size
        else (fs0, [], Except.ok ())
      match pre with
      | (fs1, tp, Except.error e) =>
        ⟨fs1, Event.openHandle path req :: tp, Except.error e⟩
      | (fs1, tp, Except.ok _) =>
        match mapFileRaw env fs1 file MapMode.readWriteMap with
        | (t, Except.error e) =>
          ⟨fs1, Event.openHandle path req :: tp ++ t,
            Except.error (Error.MmapFailed e.msg)⟩
        | (t, Except.ok bytes) =>
          ⟨fs1, Event.openHandle path req :: tp ++ t,
            Except.ok ⟨bytes, file, path, some o.mmap_opts, MmapFileMutType.Normal⟩⟩

/-- `AsyncDiskMmapFileMut::open_in`: with no options the handle is opened
via `File::open`, which opens read-only must-exist; with options the open
request is the file-open options carried by the options bundle. Either way
the file is then mapped read-write, a failed mapping call being wrapped as
MmapFailed via the explicit map_err in the source; the mode tag is
Normal. -/
def AsyncDiskMmapFileMut.open_in (env : Env) (fs : FileSys) (path : String)
    (opts : Option AsyncOptions) : Res AsyncDiskMmapFileMut :=
  match opts with
  | none =>
    let req := readOnlyRequest
    match env.openErr path req with
    | some e =>
      ⟨fs, [Event.openHandle path req],
        Except.error (Error.OpenFailed (openMsg path e))⟩
    | none =>
      let file : FileHandle := ⟨path, req.writeFlag, req.appendFlag⟩
      match mapFileRaw env fs file MapMode.readWriteMap with
      | (t, Except.error e) =>
        ⟨fs, Event.openHandle path req :: t,
          Except.error (Error.MmapFailed e.msg)⟩
      | (t, Except.ok bytes) =>
        ⟨fs, Event.openHandle path req :: t,
          Except.ok ⟨bytes, file, path, none, MmapFileMutType.Normal⟩⟩
  | some o =>
    let req := o.file_opts
    match env.openErr path req with
    | some e =>
      ⟨fs, [Event.openHandle path req],
        Except.error (Error.OpenFailed (openMsg path e))⟩
    | none =>
      let file : FileHandle := ⟨path, req.writeFlag, req.appendFlag⟩
      match mapFileRaw env fs file MapMode.readWriteMap with
      | (t, Except.error e) =>
        ⟨fs, Event.openHandle path req :: t,
          Except.error (Error.MmapFailed e.msg)⟩
      | (t, Except.ok bytes) =>
        ⟨fs, Event.openHandle path req :: t,
          Except.ok ⟨bytes, file, path, some o.mmap_opts, MmapFileMutType.Normal⟩⟩

/-- `AsyncDiskMmapFileMut::open_exist_in`: open with append-safety, then
with no options map read-write where a failed mapping call goes through the
question-mark conversion (the I/O kind); with options read the metadata, if
the file is empty and max_size is nonzero preallocate (with a directory
sync), then map read-write, again through the question-mark conversion on
failure. The mode tag is Normal. -/
def AsyncDiskMmapFileMut.open_exist_in (env : Env) (fs : FileSys)
    (path : String) (opts : Option AsyncOptions) : Res AsyncDiskMmapFileMut :=
  let req := appendRequest
  match env.openErr path req with
  | some e =>
    ⟨fs, [Event.openHandle path req],
      Except.error (Error.OpenFailed (openMsg path e))⟩
  | none =>
    let file : FileHandle := ⟨path, req.writeFlag, req.appendFlag⟩
    match opts with
    | none =>
      match mapFileRaw env fs file MapMode.readWriteMap with
      | (t, Except.error e) =>
        ⟨fs, Event.openHandle path req :: t, Except.error (errorFromRaw e)⟩
      | (t, Except.ok bytes) =>
        ⟨fs, Event.openHandle path req :: t,
          Except.ok ⟨bytes, file, path, none, MmapFileMutType.Normal⟩⟩
    | some o =>
      match env.metadataErr path with
      | some e =>
        ⟨fs, [Event.openHandle path req, Event.metadata path],
          Except.error (errorFromRaw e)⟩
      | none =>
        let file_sz := fs.lenAt path
        let pre : FileSys × List Event × Except Error Unit :=
          if file_sz = 0 ∧ 0 < o.max_size then preallocate env fs path o.max_size
          else (fs, [], Except.ok ())
        match pre with
        | (fs1, tp, Except.error e) =>
          ⟨fs1, Event.openHandle path req :: Event.metadata path :: tp,
            Except.error e⟩
        | (fs1, tp, Except.ok _) =>
          match mapFileRaw env fs1 file MapMode.readWriteMap with
          | (t, Except.error e) =>
            ⟨fs1, Event.openHandle path req :: Event.metadata path :: tp ++ t,
              Except.error (errorFromRaw e)⟩
          | (t, Except.ok bytes) =>
            ⟨fs1, Event.openHandle path req :: Event.metadata path :: tp ++ t,
              Except.ok ⟨bytes, file, path, some o.mmap_opts, MmapFileMutType.Normal⟩⟩

/-- `AsyncDiskMmapFileMut::open_cow_in`: identical preamble to
`open_exist_in`, but the mapping call requests copy-on-write mode and the
mode tag is Cow; a failed mapping call goes through the question-mark
conversion (the I/O kind) in both option branches. -/
def AsyncDiskMmapFileMut.open_cow_in (env : Env) (fs : FileSys)
    (path : String) (opts : Option AsyncOptions) : Res AsyncDiskMmapFileMut :=
  let req := appendRequest
  match env.openErr path req with
  | some e =>
    ⟨fs, [Event.openHandle path req],
      Except.error (Error.OpenFailed (openMsg path e))⟩
  | none =>
    let file : FileHandle := ⟨path, req.writeFlag, req.appendFlag⟩
    match opts with
    | none =>
      match mapFileRaw env fs file MapMode.cowMap with
      | (t, Except.error e) =>
        ⟨fs, Event.openHandle path req :: t, Except.error (errorFromRaw e)⟩
      | (t, Except.ok bytes) =>
        ⟨fs, Event.openHandle path req :: t,
          Except.ok ⟨bytes, file, path, none, MmapFileMutType.Cow⟩⟩
    | some o =>
      match env.metadataErr path with
      | some e =>
        ⟨fs, [Event.openHandle path req, Event.metadata path],
          Except.error (errorFromRaw e)⟩
      | none =>
        let file_sz := fs.lenAt path
        let pre : FileSys × List Event × Except Error Unit :=
          if file_sz = 0 ∧ 0 < o.max_size then preallocate env fs path o.max_size
          else (fs, [], Except.ok ())
        match pre with
        | (fs1, tp, Except.error e) =>
          ⟨fs1, Event.openHandle path req :: Event.metadata path :: tp,
            Except.error e⟩
        | (fs1, tp, Except.ok _) =>
          match mapFileRaw env fs1 file MapMode.cowMap with
          | (t, Except.error e) =>
            ⟨fs1, Event.openHandle path req :: Event.metadata path :: tp ++ t,
              Except.error (errorFromRaw e)⟩
          | (t, Except.ok bytes) =>
            ⟨fs1, Event.openHandle path req :: Event.metadata path :: tp ++ t,
              Except.ok ⟨bytes, file, path, some o.mmap_opts, MmapFileMutType.Cow⟩⟩

/-- Modelled from the spec: the memory backed variant is not under src/.
It owns a synthetic path and an in-process growable byte buffer standing in
for the OS mapping (spec sections 2 and 3). -/
structure AsyncMemoryMmapFileMut where
  path : String
  mmap : List Nat
deriving DecidableEq, Repr

/-- Modelled from the spec: the memory backed truncate is not under src/.
It resizes the in-process buffer in place; flush is a no-op that must not
fail for an anonymous mapping (spec 4.2 durability), so no handle flush is
performed and no external call occurs. -/
def AsyncMemoryMmapFileMut.truncate (st : AsyncMemoryMmapFileMut)
    (max_sz : Nat) : List Event × AsyncMemoryMmapFileMut :=
  ([], { st with mmap := resizeBytes st.mmap max_sz })

/-- Byte order selector for the typed accessors. -/
inductive Endian where
  | bigE
  | littleE
deriving DecidableEq, Repr

/-- Modelled from the spec: the Range I/O Engine is not under src/ (only
its test drivers are). Little-endian encoding of a natural number into `w`
bytes, least significant byte first. -/
def encLE : Nat → Nat → List Nat
  | 0, _ => []
  | w + 1, v => v % 256 :: encLE w (v / 256)

/-- Little-endian decoding, inverse of `encLE`. -/
def decLE : List Nat → Nat
  | [] => 0
  | b :: bs => b + 256 * decLE bs

/-- Encoding per the named byte order: big endian is the byte reversal of
little endian. -/
def encNat (w : Nat) (en : Endian) (v : Nat) : List Nat :=
  match en with
  | Endian.littleE => encLE w v
  | Endian.bigE => (encLE w v).reverse

/-- Decoding per the named byte order. -/
def decNat (en : Endian) (bs : List Nat) : Nat :=
  match en with
  | Endian.littleE => decLE bs
  | Endian.bigE => decLE bs.reverse

/-- The number of values a `w` byte encoding can carry. -/
def byteCap (w : Nat) : Nat := 256 ^ w

/-- Two's-complement encoding of a signed value into `w` bytes. -/
def encInt (w : Nat) (en : Endian) (v : Int) : List Nat :=
  encNat w en (v.emod (byteCap w)).toNat

/-- Two's-complement decoding of `w` bytes into a signed value. -/
def decInt (w : Nat) (en : Endian) (bs : List Nat) : Int :=
  let n := decNat en bs
  if byteCap w / 2 ≤ n then (n : Int) - byteCap w else (n : Int)

/-- Overwrite `bs.length` bytes of `buf` starting at `off`. -/
def splice (buf : List Nat) (off : Nat) (bs : List Nat) : List Nat :=
  buf.take off ++ bs ++ buf.drop (off + bs.length)

/-- Modelled from the spec: typed positional write of an unsigned value
(spec 4.2: equivalent to slicing exactly the value size at the offset and
encoding per the named byte order; out of bounds fails with Bounds). -/
def writeTypedNat (buf : List Nat) (off w : Nat) (en : Endian) (v : Nat) :
    Except Error (List Nat) :=
  if off + w ≤ buf.length then Except.ok (splice buf off (encNat w en v))
  else Except.error (Error.Bounds (off + w) buf.length)

/-- Modelled from the spec: typed positional read of an unsigned value. -/
def readTypedNat (buf : List Nat) (off w : Nat) (en : Endian) :
    Except Error Nat :=
  if off + w ≤ buf.length then
    Except.ok (decNat en ((buf.drop off).take w))
  else Except.error (Error.Bounds (off + w) buf.length)

/-- Modelled from the spec: typed positional write of a signed value. -/
def writeTypedInt (buf : List Nat) (off w : Nat) (en : Endian) (v : Int) :
    Except Error (List Nat) :=
  if off + w ≤ buf.length then Except.ok (splice buf off (encInt w en v))
  else Except.error (Error.Bounds (off + w) buf.length)

/-- Modelled from the spec: typed positional read of a signed value. -/
def readTypedInt (buf : List Nat) (off w : Nat) (en : Endian) :
    Except Error Int :=
  if off + w ≤ buf.length then
    Except.ok (decInt w en ((buf.drop off).take w))
  else Except.error (Error.Bounds (off + w) buf.length)

theorem length_encLE (w v : Nat) : (encLE w v).length = w := by
  induction w generalizing v with
  | zero => simp [encLE]
  | succ w ih => simp [encLE, ih]

theorem length_encNat (w : Nat) (en : Endian) (v : Nat) :
    (encNat w en v).length = w := by
  cases en <;> simp [encNat, length_encLE]

theorem decLE_encLE (w v : Nat) : decLE (encLE w v) = v % 256 ^ w := by
  induction w generalizing v with
  | zero => simp [encLE, decLE, Nat.mod_one]
  | succ w ih =>
    simp only [encLE, decLE, ih]
    rw [pow_succ, mul_comm (256 ^ w) 256, Nat.mod_mul]

theorem decNat_encNat (w : Nat) (en : Endian) (v : Nat) :
    decNat en (encNat w en v) = v % byteCap w := by
  cases en <;> simp [encNat, decNat, decLE_encLE, byteCap]

theorem splice_readback (buf : List Nat) (off : Nat) (bs : List Nat)
    (h : off + bs.length ≤ buf.length) :
    ((splice buf off bs).drop off).take bs.length = bs := by
  have hoff : off ≤ buf.length := le_trans (Nat.le_add_right _ _) h
  have htk : (buf.take off).length = off := by
    simp [List.length_take, Nat.min_eq_left hoff]
  unfold splice
  rw [List.append_assoc]
  calc ((buf.take off ++ (bs ++ buf.drop (off + bs.length))).drop off).take bs.length
      = ((buf.take off ++ (bs ++ buf.drop (off + bs.length))).drop
          (buf.take off).length).take bs.length := by rw [htk]
    _ = (bs ++ buf.drop (off + bs.length)).take bs.length := by
          rw [List.drop_left]
    _ = bs := List.take_left _ _

theorem splice_length (buf : List Nat) (off : Nat) (bs : List Nat)
    (h : off + bs.length ≤ buf.length) :
    (splice buf off bs).length = buf.length := by
  have hoff : off ≤ buf.length := le_trans (Nat.le_add_right _ _) h
  simp [splice, List.length_take, List.length_drop,
    Nat.min_eq_left hoff]
  omega

theorem two_dvd_byteCap (w : Nat) (hw : 1 ≤ w) : 2 ∣ byteCap w := by
  have h256 : (2 : Nat) ∣ 256 := by decide
  exact dvd_pow h256 (Nat.one_le_iff_ne_zero.mp hw)

theorem byteCap_pos (w : Nat) : 0 < byteCap w := Nat.pos_pow_of_pos w (by decide)

theorem decInt_encInt (w : Nat) (en : Endian) (v : Int) (hw : 1 ≤ w)
    (hlo : -((byteCap w / 2 : Nat) : Int) ≤ v)
    (hhi : v < ((byteCap w / 2 : Nat) : Int)) :
    decInt w en (encInt w en v) = v := by
  have hcap : byteCap w / 2 * 2 = byteCap w :=
    Nat.div_mul_cancel (two_dvd_byteCap w hw)
  have hpos : 0 < byteCap w := byteCap_pos w
  have hposZ : (0 : Int) < (byteCap w : Int) := by exact_mod_cast hpos
  have hcapZ : ((byteCap w / 2 : Nat) : Int) * 2 = (byteCap w : Int) := by
    exact_mod_cast hcap
  unfold encInt decInt
  rw [decNat_encNat]
  rcases le_or_lt 0 v with hge | hlt
  · have hvlt : v < (byteCap w : Int) := by omega
    have hemod : v.emod (byteCap w) = v := Int.emod_eq_of_lt hge hvlt
    rw [hemod]
    have hn : (v.toNat : Int) = v := Int.toNat_of_nonneg hge
    have hnlt : v.toNat < byteCap w := by omega
    rw [Nat.mod_eq_of_lt hnlt]
    have hcond : ¬ byteCap w / 2 ≤ v.toNat := by omega
    rw [if_neg hcond]
    exact hn
  · have hge0 : 0 ≤ v + (byteCap w : Int) := by omega
    have hlt1 : v + (byteCap w : Int) < (byteCap w : Int) := by omega
    have h1 : (v + (byteCap w : Int)) % (byteCap w : Int) = v % (byteCap w : Int) := by
      have h10 := Int.add_mul_emod_self_left v ((byteCap w : Int)) 1
      rw [mul_one] at h10
      exact h10
    have h4 : (v + (byteCap w : Int)) % (byteCap w : Int) = v + (byteCap w : Int) :=
      Int.emod_eq_of_lt hge0 hlt1
    have hemod : v.emod (byteCap w : Int) = v + (byteCap w : Int) := by
      show v % (byteCap w : Int) = v + (byteCap w : Int)
      rw [← h1, h4]
    rw [hemod]
    have hn : (((v + (byteCap w : Int)).toNat : Int)) = v + (byteCap w : Int) :=
      Int.toNat_of_nonneg hge0
    have hnlt : (v + (byteCap w : Int)).toNat < byteCap w := by omega
    rw [Nat.mod_eq_of_lt hnlt]
    have hcond : byteCap w / 2 ≤ (v + (byteCap w : Int)).toNat := by omega
    rw [if_pos hcond]
    omega

theorem readback_typedNat (buf : List Nat) (off w : Nat) (en : Endian)
    (v : Nat) (h : off + w ≤ buf.length) (hv : v < byteCap w) :
    Except.bind (writeTypedNat buf off w en v)
      (fun b => readTypedNat b off w en) = Except.ok v := by
  unfold writeTypedNat
  rw [if_pos h]
  show readTypedNat (splice buf off (encNat w en v)) off w en = Except.ok v
  have hlen : (encNat w en v).length = w := length_encNat w en v
  have hbound : off + (encNat w en v).length ≤ buf.length := by rw [hlen]; exact h
  have hsplen : (splice buf off (encNat w en v)).length = buf.length :=
    splice_length buf off (encNat w en v) hbound
  unfold readTypedNat
  rw [hsplen, if_pos h]
  have hslice : ((splice buf off (encNat w en v)).drop off).take w = encNat w en v := by
    have := splice_readback buf off (encNat w en v) hbound
    rw [hlen] at this
    exact this
  rw [hslice, decNat_encNat, Nat.mod_eq_of_lt hv]

theorem readback_typedInt (buf : List Nat) (off w : Nat) (en : Endian)
    (v : Int) (h : off + w ≤ buf.length) (hw : 1 ≤ w)
    (hlo : -((byteCap w / 2 : Nat) : Int) ≤ v)
    (hhi : v < ((byteCap w / 2 : Nat) : Int)) :
    Except.bind (writeTypedInt buf off w en v)
      (fun b => readTypedInt b off w en) = Except.ok v := by
  unfold writeTypedInt
  rw [if_pos h]
  show readTypedInt (splice buf off (encInt w en v)) off w en = Except.ok v
  have hlen : (encInt w en v).length = w := by
    unfold encInt; exact length_encNat w en _
  have hbound : off + (encInt w en v).length ≤ buf.length := by rw [hlen]; exact h
  have hsplen : (splice buf off (encInt w en v)).length = buf.length :=
    splice_length buf off (encInt w en v) hbound
  unfold readTypedInt
  rw [hsplen, if_pos h]
  have hslice : ((splice buf off (encInt w en v)).drop off).take w = encInt w en v := by
    have := splice_readback buf off (encInt w en v) hbound
    rw [hlen] at this
    exact this
  rw [hslice, decInt_encInt w en v hw hlo hhi]

/-- Zero the sub-range between the two bounds, clamped to the buffer. -/
def zeroFill (buf : List Nat) (start stop : Nat) : List Nat :=
  let e := min stop buf.length
  let s := min start e
  buf.take s ++ List.replicate (e - s) 0 ++ buf.drop e

/-- Modelled from the spec: the operations of the Range I/O Engine (spec
4.2) as an observable operation language: bounds-checked slicing,
whole and partial copy-out, raw positional write and read, zeroing, typed
positional accessors, a sequential cursor read, and export of a range to a
new file. -/
inductive RangeOp where
  | lenOp
  | isEmptyOp
  | sliceOp (off len : Nat)
  | writeRawOp (bs : List Nat) (off : Nat)
  | readRawOp (len off : Nat)
  | readTypedNatOp (off w : Nat) (en : Endian)
  | writeTypedNatOp (off w : Nat) (en : Endian) (v : Nat)
  | readTypedIntOp (off w : Nat) (en : Endian)
  | writeTypedIntOp (off w : Nat) (en : Endian) (v : Int)
  | zeroRangeOp (start stop : Nat)
  | copyAllOp
  | copyRangeOp (off len : Nat)
  | cursorReadOp (pos n : Nat)
  | exportRangeOp (off len : Nat)
deriving DecidableEq, Repr

/-- The observable result of a Range I/O Engine operation. -/
inductive Obs where
  | natObs (n : Nat)
  | intObs (v : Int)
  | boolObs (b : Bool)
  | bytesObs (bs : List Nat)
  | errObs (e : Error)
  | unitObs
deriving DecidableEq, Repr

/-- Modelled from the spec: one step of the Range I/O Engine over the bytes
of the current mapped region. This logic is shared by the file backed and
the memory backed variants (spec 4.2: identical behavior over either
backing). Raw positional write and read copy the lesser of the requested
count and the remaining space and report the count; slicing, copy-out,
typed accessors and export are bounds checked and fail with Bounds. -/
def stepEngine (buf : List Nat) : RangeOp → Obs × List Nat
  | RangeOp.lenOp => (Obs.natObs buf.length, buf)
  | RangeOp.isEmptyOp => (Obs.boolObs (buf.length == 0), buf)
  | RangeOp.sliceOp off len =>
    if off + len ≤ buf.length then
      (Obs.bytesObs ((buf.drop off).take len), buf)
    else (Obs.errObs (Error.Bounds (off + len) buf.length), buf)
  | RangeOp.writeRawOp bs off =>
    let cnt := min bs.length (buf.length - off)
    (Obs.natObs cnt, splice buf off (bs.take cnt))
  | RangeOp.readRawOp len off =>
    let cnt := min len (buf.length - off)
    (Obs.bytesObs ((buf.drop off).take cnt), buf)
  | RangeOp.readTypedNatOp off w en =>
    match readTypedNat buf off w en with
    | Except.ok n => (Obs.natObs n, buf)
    | Except.error e => (Obs.errObs e, buf)
  | RangeOp.writeTypedNatOp off w en v =>
    match writeTypedNat buf off w en v with
    | Except.ok b => (Obs.unitObs, b)
    | Except.error e => (Obs.errObs e, buf)
  | RangeOp.readTypedIntOp off w en =>
    match readTypedInt buf off w en with
    | Except.ok n => (Obs.intObs n, buf)
    | Except.error e => (Obs.errObs e, buf)
  | RangeOp.writeTypedIntOp off w en v =>
    match writeTypedInt buf off w en v with
    | Except.ok b => (Obs.unitObs, b)
    | Except.error e => (Obs.errObs e, buf)
  | RangeOp.zeroRangeOp start stop => (Obs.unitObs, zeroFill buf start stop)
  | RangeOp.copyAllOp => (Obs.bytesObs buf, buf)
  | RangeOp.copyRangeOp off len =>
    if off + len ≤ buf.length then
      (Obs.bytesObs ((buf.drop off).take len), buf)
    else (Obs.errObs (Error.Bounds (off + len) buf.length), buf)
  | RangeOp.cursorReadOp pos n =>
    (Obs.bytesObs ((buf.drop pos).take n), buf)
  | RangeOp.exportRangeOp off len =>
    if off + len ≤ buf.length then
      (Obs.bytesObs ((buf.drop off).take len), buf)
    else (Obs.errObs (Error.Bounds (off + len) buf.length), buf)

/-- Run a list of Range I/O Engine operations over the memory backed
variant, collecting the observations. -/
def AsyncMemoryMmapFileMut.runOps :
    AsyncMemoryMmapFileMut → List RangeOp → List Obs × AsyncMemoryMmapFileMut
  | st, [] => ([], st)
  | st, op :: ops =>
    let r := stepEngine st.mmap op
    let rest := AsyncMemoryMmapFileMut.runOps { st with mmap := r.2 } ops
    (r.1 :: rest.1, rest.2)

/-- Run a list of Range I/O Engine operations over the file backed
variant, collecting the observations. -/
def AsyncDiskMmapFileMut.runOps :
    AsyncDiskMmapFileMut → List RangeOp → List Obs × AsyncDiskMmapFileMut
  | st, [] => ([], st)
  | st, op :: ops =>
    let r := stepEngine st.mmap op
    let rest := AsyncDiskMmapFileMut.runOps { st with mmap := r.2 } ops
    (r.1 :: rest.1, rest.2)

/-- An environment in which every external call succeeds. -/
def envOK : Env :=
  ⟨fun _ _ => none, fun _ => none, fun _ _ => none, fun _ => none,
   fun _ => none, fun _ => none, fun _ => none⟩

/-- A concrete underlying failure used by the fixtures. -/
def ioE : IOError := ⟨"eacces"⟩

/-- An environment in which exactly the mapping call fails. -/
def envMapFail : Env :=
  ⟨fun _ _ => none, fun _ => none, fun _ _ => none, fun _ => some ioE,
   fun _ => none, fun _ => none, fun _ => none⟩

/-- An environment in which exactly the data flush fails. -/
def envFlushFail : Env :=
  ⟨fun _ _ => none, fun _ => none, fun _ _ => none, fun _ => none,
   fun _ => some ioE, fun _ => none, fun _ => none⟩

/-- An environment in which exactly the handle set-length call fails. -/
def envSetLenFail : Env :=
  ⟨fun _ _ => none, fun _ => none, fun _ _ => some ioE, fun _ => none,
   fun _ => none, fun _ => none, fun _ => none⟩

/-- A filesystem with one three byte file. -/
def fs0 : FileSys := ⟨[("d/f.txt", [1, 2, 3])]⟩

/-- A mutable mapped file over the fixture file, Normal mode. -/
def st0 : AsyncDiskMmapFileMut :=
  ⟨[1, 2, 3], ⟨"d/f.txt", true, false⟩, "d/f.txt", none, MmapFileMutType.Normal⟩

/-- A mutable mapped file whose mapped length is zero. -/
def stEmpty : AsyncDiskMmapFileMut :=
  ⟨[], ⟨"d/f.txt", true, false⟩, "d/f.txt", none, MmapFileMutType.Normal⟩

/-- A mutable mapped file in copy-on-write mode. -/
def stCow : AsyncDiskMmapFileMut :=
  ⟨[1, 2, 3], ⟨"d/f.txt", true, false⟩, "d/f.txt", none, MmapFileMutType.Cow⟩

/-- A memory backed mutable mapped file fixture. -/
def m0 : AsyncMemoryMmapFileMut := ⟨"memory.mem", [1, 2, 3]⟩

/-- An options fixture whose file-open flags are read-write. -/
def opts0 : AsyncOptions := ⟨⟨0⟩, ⟨true, true, false, false, false⟩, 100⟩

/-- C1 counterexample: with no options, the mutable open entry point issues
a read-only handle-open request (the behavior of File::open), not the
read-write request the claim states; the concrete run on a three byte file
shows the only open request carries writeFlag false. -/
theorem open_mut_default_request_cex :
    (AsyncDiskMmapFileMut.open_in envOK fs0 "d/f.txt" none).trace =
      [Event.openHandle "d/f.txt" readOnlyRequest,
        Event.mapCall "d/f.txt" MapMode.readWriteMap 3] ∧
    readOnlyRequest.writeFlag = false := by
  constructor
  · rfl
  · rfl

/-- C1 (amended): with no options the mutable open entry point opens the
backing handle read-only must-exist (the documented behavior of File::open)
and then requests a read-write mapping of it; with options the open request
is the file-open flags of the options. -/
theorem open_mut_request_readonly (env : Env) (fs : FileSys) (path : String)
    (o : AsyncOptions) :
    readOnlyRequest.readFlag = true ∧ readOnlyRequest.writeFlag = false ∧
    (AsyncDiskMmapFileMut.open_in env fs path none).trace.head? =
      some (Event.openHandle path readOnlyRequest) ∧
    (AsyncDiskMmapFileMut.open_in env fs path (some o)).trace.head? =
      some (Event.openHandle path o.file_opts) ∧
    (env.openErr path readOnlyRequest = none →
      (AsyncDiskMmapFileMut.open_in env fs path none).trace =
        [Event.openHandle path readOnlyRequest,
          Event.mapCall path MapMode.readWriteMap (fs.lenAt path)]) := by
  refine ⟨rfl, rfl, ?_, ?_, ?_⟩
  · unfold AsyncDiskMmapFileMut.open_in
    cases h : env.openErr path readOnlyRequest <;>
      simp [h, mapFileRaw] <;> cases hm : env.mapErr MapMode.readWriteMap <;> simp [hm]
  · unfold AsyncDiskMmapFileMut.open_in
    cases h : env.openErr path o.file_opts <;>
      simp [h, mapFileRaw] <;> cases hm : env.mapErr MapMode.readWriteMap <;> simp [hm]
  · intro h
    unfold AsyncDiskMmapFileMut.open_in
    simp [h, mapFileRaw]
    cases hm : env.mapErr MapMode.readWriteMap <;> simp [hm]

/-- C1 witness: the amended theorem applied to the concrete fixture. -/
theorem open_mut_request_readonly_witness :
    (AsyncDiskMmapFileMut.open_in envOK fs0 "d/f.txt" none).trace =
      [Event.openHandle "d/f.txt" readOnlyRequest,
        Event.mapCall "d/f.txt" MapMode.readWriteMap (fs0.lenAt "d/f.txt")] :=
  (open_mut_request_readonly envOK fs0 "d/f.txt" opts0).2.2.2.2 rfl

/-- C2 counterexample: the linux truncate flushes even when the mapped
length is already zero: on a zero length mapping the flush event is in the
trace, and observably a failing flush makes the whole truncate fail with
the I/O kind although the claim says the flush step is skipped. -/
theorem truncate_linux_zero_len_flush_cex :
    stEmpty.mmap.length = 0 ∧
    Event.flushData "d/f.txt" ∈
      (AsyncDiskMmapFileMut.truncateLinux envOK fs0 stEmpty 4).trace ∧
    (AsyncDiskMmapFileMut.truncateLinux envFlushFail fs0 stEmpty 4).val =
      Except.error (ioError ioE) := by
  refine ⟨rfl, ?_, rfl⟩
  decide

/-- C2 (amended): the non-linux truncate flushes exactly when the current
mapped length is nonzero; the linux truncate flushes unconditionally; the
memory backed truncate performs no external call at all (so never a handle
flush). -/
theorem truncate_flush_policy (env : Env) (fs : FileSys)
    (st : AsyncDiskMmapFileMut) (m : AsyncMemoryMmapFileMut) (max_sz : Nat) :
    (0 < st.mmap.length →
      Event.flushData st.file.hpath ∈
        (AsyncDiskMmapFileMut.truncateNotLinux env fs st max_sz).trace) ∧
    (st.mmap.length = 0 →
      ∀ p, Event.flushData p ∉
        (AsyncDiskMmapFileMut.truncateNotLinux env fs st max_sz).trace) ∧
    Event.flushData st.file.hpath ∈
      (AsyncDiskMmapFileMut.truncateLinux env fs st max_sz).trace ∧
    (AsyncMemoryMmapFileMut.truncate m max_sz).1 = [] := by
  refine ⟨?_, ?_, ?_, rfl⟩
  · intro h
    cases hf : env.flushErr st.file.hpath <;>
      cases hs : env.setLenErr st.file.hpath max_sz <;>
        cases hm : env.mapErr st.typ.mapMode <;>
          simp [AsyncDiskMmapFileMut.truncateNotLinux, AsyncDiskMmapFileMut.flush,
            remmap, mapFileRaw, hf, hs, hm, h]
  · intro h p
    cases hs : env.setLenErr st.file.hpath max_sz <;>
      cases hm : env.mapErr st.typ.mapMode <;>
        simp [AsyncDiskMmapFileMut.truncateNotLinux, AsyncDiskMmapFileMut.flush,
          remmap, mapFileRaw, hs, hm, h]
  · cases hf : env.flushErr st.file.hpath <;>
      cases hs : env.setLenErr st.file.hpath max_sz <;>
        cases hm : env.mapErr st.typ.mapMode <;>
          simp [AsyncDiskMmapFileMut.truncateLinux, AsyncDiskMmapFileMut.flush,
            remmap, mapFileRaw, hf, hs, hm]

/-- C2 witness: the amended theorem applied to a nonzero length fixture. -/
theorem truncate_flush_policy_witness :
    Event.flushData "d/f.txt" ∈
      (AsyncDiskMmapFileMut.truncateNotLinux envOK fs0 st0 4).trace :=
  (truncate_flush_policy envOK fs0 st0 m0 4).1 (by decide)

theorem lookup_store (fs : FileSys) (p : String) (bs : List Nat) :
    (fs.store p bs).lookup p = some bs := by
  simp [FileSys.store, FileSys.lookup]

theorem lookup_erase (fs : FileSys) (p : String) :
    (fs.erase p).lookup p = none := by
  have h : (fs.files.filter (fun kv => kv.1 != p)).find?
      (fun kv => kv.1 == p) = none := by
    rw [List.find?_eq_none]
    intro x hx
    have hq := (List.mem_filter.mp hx).2
    simp only [bne_iff_ne, ne_eq] at hq
    simp [hq]
  simp [FileSys.erase, FileSys.lookup, h]

theorem length_resizeBytes (bs : List Nat) (n : Nat) :
    (resizeBytes bs n).length = n := by
  simp [resizeBytes]
  omega

theorem lenAt_setLen (fs : FileSys) (p : String) (n : Nat) :
    (fs.setLen p n).lenAt p = n := by
  simp [FileSys.setLen, FileSys.lenAt, lookup_store, length_resizeBytes]

/-- C4: in both truncate variants, when the handle length-set step fails
the returned error is TruncationFailed carrying a message built from the
path and the underlying cause (both of which occur verbatim in it), and no
other error kind is used for that step. -/
theorem truncate_set_len_failure (env : Env) (fs : FileSys)
    (st : AsyncDiskMmapFileMut) (max_sz : Nat) (e : IOError)
    (hf : env.flushErr st.file.hpath = none)
    (hs : env.setLenErr st.file.hpath max_sz = some e) :
    (AsyncDiskMmapFileMut.truncateNotLinux env fs st max_sz).val =
      Except.error (Error.TruncationFailed (truncationMsg st.path e)) ∧
    (AsyncDiskMmapFileMut.truncateLinux env fs st max_sz).val =
      Except.error (Error.TruncationFailed (truncationMsg st.path e)) ∧
    List.IsInfix st.path.data (truncationMsg st.path e).data ∧
    List.IsInfix e.msg.data (truncationMsg st.path e).data := by
  refine ⟨?_, ?_, ?_, ?_⟩
  · by_cases h0 : 0 < st.mmap.length <;>
      simp [AsyncDiskMmapFileMut.truncateNotLinux, AsyncDiskMmapFileMut.flush,
        hf, hs, h0]
  · simp [AsyncDiskMmapFileMut.truncateLinux, AsyncDiskMmapFileMut.flush, hf, hs]
  · exact ⟨"path: ".data, (", err: " ++ e.msg).data, by
      simp [truncationMsg, String.data_append, List.append_assoc]⟩
  · exact ⟨("path: " ++ st.path ++ ", err: ").data, [], by
      simp [truncationMsg, String.data_append, List.append_assoc]⟩

/-- C4 witness: the theorem applied to a run whose set-length call fails. -/
theorem truncate_set_len_failure_witness :
    (AsyncDiskMmapFileMut.truncateLinux envSetLenFail fs0 st0 4).val =
      Except.error (Error.TruncationFailed (truncationMsg "d/f.txt" ioE)) :=
  (truncate_set_len_failure envSetLenFail fs0 st0 4 ioE rfl rfl).2.1

/-- C5: remove drops the mapping, zeroes the handle length, drops the
handle and deletes the path, in that order; a failing length-set or delete
surfaces as the I/O kind; on success the path no longer exists in the
filesystem. -/
theorem remove_behavior (env : Env) (fs : FileSys) (st : AsyncDiskMmapFileMut) :
    (env.setLenErr st.file.hpath 0 = none → env.removeErr st.path = none →
      (AsyncDiskMmapFileMut.remove env fs st).trace =
        [Event.unmap, Event.setLen st.file.hpath 0,
          Event.dropHandle st.file.hpath, Event.removePath st.path] ∧
      (AsyncDiskMmapFileMut.remove env fs st).val = Except.ok () ∧
      (AsyncDiskMmapFileMut.remove env fs st).fs.lookup st.path = none) ∧
    (∀ e, env.setLenErr st.file.hpath 0 = some e →
      (AsyncDiskMmapFileMut.remove env fs st).val = Except.error (ioError e)) ∧
    (∀ e, env.setLenErr st.file.hpath 0 = none → env.removeErr st.path = some e →
      (AsyncDiskMmapFileMut.remove env fs st).val = Except.error (ioError e)) := by
  refine ⟨?_, ?_, ?_⟩
  · intro h1 h2
    simp [AsyncDiskMmapFileMut.remove, h1, h2, lookup_erase]
  · intro e he
    simp [AsyncDiskMmapFileMut.remove, he]
  · intro e h1 he
    simp [AsyncDiskMmapFileMut.remove, h1, he]

/-- C5 witness: the theorem applied to a fully succeeding removal run. -/
theorem remove_behavior_witness :
    (AsyncDiskMmapFileMut.remove envOK fs0 st0).fs.lookup "d/f.txt" = none :=
  ((remove_behavior envOK fs0 st0).1 rfl rfl).2.2

/-- C6: close_with_truncate flushes and drops the mapping; a nonnegative
target additionally sets the handle length to the target and syncs the
containing directory; a negative target performs neither, leaving the
filesystem (hence the handle length) unchanged. -/
theorem close_with_truncate_behavior (env : Env) (fs : FileSys)
    (st : AsyncDiskMmapFileMut) (max_sz : Int) :
    (0 ≤ max_sz → env.flushErr st.file.hpath = none →
      env.setLenErr st.file.hpath max_sz.toNat = none →
      env.syncDirErr (parentDir st.path) = none →
      (AsyncDiskMmapFileMut.close_with_truncate env fs st max_sz).trace =
        [Event.flushData st.file.hpath, Event.unmap,
          Event.setLen st.file.hpath max_sz.toNat,
          Event.syncDir (parentDir st.path)] ∧
      (AsyncDiskMmapFileMut.close_with_truncate env fs st max_sz).val =
        Except.ok () ∧
      (AsyncDiskMmapFileMut.close_with_truncate env fs st max_sz).fs =
        fs.setLen st.file.hpath max_sz.toNat) ∧
    (max_sz < 0 → env.flushErr st.file.hpath = none →
      (AsyncDiskMmapFileMut.close_with_truncate env fs st max_sz).trace =
        [Event.flushData st.file.hpath, Event.unmap] ∧
      (AsyncDiskMmapFileMut.close_with_truncate env fs st max_sz).val =
        Except.ok () ∧
      (AsyncDiskMmapFileMut.close_with_truncate env fs st max_sz).fs = fs) := by
  constructor
  · intro h0 hf hs hd
    simp [AsyncDiskMmapFileMut.close_with_truncate, AsyncDiskMmapFileMut.flush,
      hf, h0, hs, hd]
  · intro h0 hf
    have hn : ¬ 0 ≤ max_sz := by omega
    simp [AsyncDiskMmapFileMut.close_with_truncate, AsyncDiskMmapFileMut.flush,
      hf, hn]

/-- C6 witness: both branches of the theorem at concrete targets 8 and -1. -/
theorem close_with_truncate_behavior_witness :
    (AsyncDiskMmapFileMut.close_with_truncate envOK fs0 st0 8).trace =
      [Event.flushData "d/f.txt", Event.unmap, Event.setLen "d/f.txt" 8,
        Event.syncDir (parentDir "d/f.txt")] ∧
    (AsyncDiskMmapFileMut.close_with_truncate envOK fs0 st0 (-1)).fs = fs0 := by
  constructor
  · have h := ((close_with_truncate_behavior envOK fs0 st0 8).1
      (by decide) rfl rfl rfl).1
    simpa [st0] using h
  · exact ((close_with_truncate_behavior envOK fs0 st0 (-1)).2
      (by decide) rfl).2.2

/-- A filesystem whose fixture file is empty. -/
def fsEmptyFile : FileSys := ⟨[("d/f.txt", [])]⟩

/-- C7: in the options branches of open_exist_in and open_cow_in, the
handle is grown to max_size and the directory synced, before the mapping
call, exactly when the current file length is zero and max_size is
nonzero; otherwise no length-set occurs and the filesystem is unchanged
before mapping. The trace shape is the same whether or not the mapping
call itself then fails. -/
theorem open_append_preallocation (env : Env) (fs : FileSys) (path : String)
    (o : AsyncOptions)
    (hopen : env.openErr path appendRequest = none)
    (hmeta : env.metadataErr path = none)
    (hsl : env.setLenErr path o.max_size = none)
    (hsd : env.syncDirErr (parentDir path) = none) :
    (fs.lenAt path = 0 ∧ 0 < o.max_size →
      (AsyncDiskMmapFileMut.open_exist_in env fs path (some o)).trace =
        [Event.openHandle path appendRequest, Event.metadata path,
          Event.setLen path o.max_size, Event.syncDir (parentDir path),
          Event.mapCall path MapMode.readWriteMap o.max_size] ∧
      (AsyncDiskMmapFileMut.open_cow_in env fs path (some o)).trace =
        [Event.openHandle path appendRequest, Event.metadata path,
          Event.setLen path o.max_size, Event.syncDir (parentDir path),
          Event.mapCall path MapMode.cowMap o.max_size]) ∧
    (¬ (fs.lenAt path = 0 ∧ 0 < o.max_size) →
      (AsyncDiskMmapFileMut.open_exist_in env fs path (some o)).trace =
        [Event.openHandle path appendRequest, Event.metadata path,
          Event.mapCall path MapMode.readWriteMap (fs.lenAt path)] ∧
      (AsyncDiskMmapFileMut.open_exist_in env fs path (some o)).fs = fs ∧
      (AsyncDiskMmapFileMut.open_cow_in env fs path (some o)).trace =
        [Event.openHandle path appendRequest, Event.metadata path,
          Event.mapCall path MapMode.cowMap (fs.lenAt path)] ∧
      (AsyncDiskMmapFileMut.open_cow_in env fs path (some o)).fs = fs) := by
  constructor
  · rintro ⟨hz, hpos⟩
    constructor
    · cases hm : env.mapErr MapMode.readWriteMap <;>
        · simp [AsyncDiskMmapFileMut.open_exist_in, preallocate, hopen, hmeta,
            hsl, hsd, hz, hpos, hm, lenAt_setLen]
          simp [mapFileRaw, hm, lenAt_setLen]
    · cases hm : env.mapErr MapMode.cowMap <;>
        · simp [AsyncDiskMmapFileMut.open_cow_in, preallocate, hopen, hmeta,
            hsl, hsd, hz, hpos, hm, lenAt_setLen]
          simp [mapFileRaw, hm, lenAt_setLen]
  · intro hn
    refine ⟨?_, ?_, ?_, ?_⟩
    · cases hm : env.mapErr MapMode.readWriteMap <;>
        · simp [AsyncDiskMmapFileMut.open_exist_in, hopen, hmeta, hn, hm]
          simp [mapFileRaw, hm]
    · cases hm : env.mapErr MapMode.readWriteMap <;>
        · simp [AsyncDiskMmapFileMut.open_exist_in, hopen, hmeta, hn, hm]
          simp [mapFileRaw, hm]
    · cases hm : env.mapErr MapMode.cowMap <;>
        · simp [AsyncDiskMmapFileMut.open_cow_in, hopen, hmeta, hn, hm]
          simp [mapFileRaw, hm]
    · cases hm : env.mapErr MapMode.cowMap <;>
        · simp [AsyncDiskMmapFileMut.open_cow_in, hopen, hmeta, hn, hm]
          simp [mapFileRaw, hm]

/-- C7 witness: on an empty fixture file with max_size 100 the growth and
directory sync happen before the mapping call; on a nonempty file they do
not and the filesystem is untouched. -/
theorem open_append_preallocation_witness :
    (AsyncDiskMmapFileMut.open_exist_in envOK fsEmptyFile "d/f.txt"
        (some opts0)).trace =
      [Event.openHandle "d/f.txt" appendRequest, Event.metadata "d/f.txt",
        Event.setLen "d/f.txt" 100, Event.syncDir (parentDir "d/f.txt"),
        Event.mapCall "d/f.txt" MapMode.readWriteMap 100] ∧
    (AsyncDiskMmapFileMut.open_exist_in envOK fs0 "d/f.txt"
        (some opts0)).fs = fs0 := by
  constructor
  · have h := ((open_append_preallocation envOK fsEmptyFile "d/f.txt" opts0
      rfl rfl rfl rfl).1 (by constructor <;> decide)).1
    simpa [opts0] using h
  · have h := ((open_append_preallocation envOK fs0 "d/f.txt" opts0
      rfl rfl rfl rfl).2 (by intro hc; exact absurd hc.1 (by decide))).2.1
    exact h

/-- C3 counterexample: in the no-options branch of open_exist_in the
mapping call failure travels through the question-mark conversion and
surfaces as the I/O kind, not as MmapFailed as the claim states. -/
theorem open_exist_mapping_failure_kind_cex :
    (AsyncDiskMmapFileMut.open_exist_in envMapFail fs0 "d/f.txt" none).val =
      Except.error (ioError ioE) ∧
    (ioError ioE).kind = ErrorKind.ioKind ∧
    ErrorKind.ioKind ≠ ErrorKind.mmapFailedKind := by
  refine ⟨?_, rfl, by decide⟩
  simp [AsyncDiskMmapFileMut.open_exist_in, envMapFail, mapFileRaw, errorFromRaw]

/-- C3 (amended): a failed mapping call is never swallowed; it surfaces as
MmapFailed from the create and open entry points of both file types, but
from the open_exist and open_cow entry points it surfaces as the I/O kind
(through the question-mark conversion in the source). -/
theorem mapping_failure_error_kinds (env : Env) (fs : FileSys) (path : String)
    (o : AsyncOptions) (e : IOError)
    (hro : env.openErr path readOnlyRequest = none)
    (hcr : env.openErr path createRequest = none)
    (hap : env.openErr path appendRequest = none)
    (hop : env.openErr path o.file_opts = none)
    (hmeta : env.metadataErr path = none)
    (hsl : env.setLenErr path o.max_size = none)
    (hsd : env.syncDirErr (parentDir path) = none)
    (hmr : ∀ m, env.mapErr m = some e) :
    (AsyncDiskMmapFile.open_in env fs path none).val =
      Except.error (Error.MmapFailed e.msg) ∧
    (AsyncDiskMmapFile.open_exec_in env fs path none).val =
      Except.error (Error.MmapFailed e.msg) ∧
    (AsyncDiskMmapFileMut.create_in env fs path none).val =
      Except.error (Error.MmapFailed e.msg) ∧
    (AsyncDiskMmapFileMut.create_in env fs path (some o)).val =
      Except.error (Error.MmapFailed e.msg) ∧
    (AsyncDiskMmapFileMut.open_in env fs path none).val =
      Except.error (Error.MmapFailed e.msg) ∧
    (AsyncDiskMmapFileMut.open_in env fs path (some o)).val =
      Except.error (Error.MmapFailed e.msg) ∧
    (AsyncDiskMmapFileMut.open_exist_in env fs path none).val =
      Except.error (ioError e) ∧
    (AsyncDiskMmapFileMut.open_exist_in env fs path (some o)).val =
      Except.error (ioError e) ∧
    (AsyncDiskMmapFileMut.open_cow_in env fs path none).val =
      Except.error (ioError e) ∧
    (AsyncDiskMmapFileMut.open_cow_in env fs path (some o)).val =
      Except.error (ioError e) := by
  refine ⟨?_, ?_, ?_, ?_, ?_, ?_, ?_, ?_, ?_, ?_⟩
  · simp [AsyncDiskMmapFile.open_in, hro, mapFileRaw, hmr MapMode.readOnlyMap]
  · simp [AsyncDiskMmapFile.open_exec_in, hro, mapFileRaw, hmr MapMode.execMap]
  · simp [AsyncDiskMmapFileMut.create_in, hcr, mapFileRaw,
      hmr MapMode.readWriteMap]
  · by_cases hp : 0 < o.max_size <;>
      · simp [AsyncDiskMmapFileMut.create_in, hcr, preallocate, hsl, hsd, hp]
        simp [mapFileRaw, hmr MapMode.readWriteMap]
  · simp [AsyncDiskMmapFileMut.open_in, hro, mapFileRaw,
      hmr MapMode.readWriteMap]
  · simp [AsyncDiskMmapFileMut.open_in, hop, mapFileRaw,
      hmr MapMode.readWriteMap]
  · simp [AsyncDiskMmapFileMut.open_exist_in, hap, mapFileRaw, errorFromRaw,
      hmr MapMode.readWriteMap]
  · by_cases hc : fs.lenAt path = 0 ∧ 0 < o.max_size <;>
      · simp [AsyncDiskMmapFileMut.open_exist_in, hap, hmeta, preallocate,
          hsl, hsd, hc]
        simp [mapFileRaw, errorFromRaw, hmr MapMode.readWriteMap]
  · simp [AsyncDiskMmapFileMut.open_cow_in, hap, mapFileRaw, errorFromRaw,
      hmr MapMode.cowMap]
  · by_cases hc : fs.lenAt path = 0 ∧ 0 < o.max_size <;>
      · simp [AsyncDiskMmapFileMut.open_cow_in, hap, hmeta, preallocate,
          hsl, hsd, hc]
        simp [mapFileRaw, errorFromRaw, hmr MapMode.cowMap]

/-- C3 witness: the amended theorem at a concrete environment in which the
mapping call fails. -/
theorem mapping_failure_error_kinds_witness :
    (AsyncDiskMmapFileMut.create_in envMapFail fs0 "d/f.txt" none).val =
      Except.error (Error.MmapFailed ioE.msg) ∧
    (AsyncDiskMmapFileMut.open_cow_in envMapFail fs0 "d/f.txt" none).val =
      Except.error (ioError ioE) := by
  have h := mapping_failure_error_kinds envMapFail fs0 "d/f.txt" opts0 ioE
    rfl rfl rfl rfl rfl rfl rfl (fun _ => rfl)
  exact ⟨h.2.2.1, h.2.2.2.2.2.2.2.2.1⟩

/-- C10: is_cow holds exactly on the Cow mode tag; the copy-on-write entry
point constructs the Cow tag while create, open and open_exist construct
Normal; and both truncate variants return a file with the unchanged tag,
remapping with the mapping mode derived from the stored tag. -/
theorem is_cow_mode_tag_invariant (env : Env) (fs : FileSys) (path : String)
    (o : Option AsyncOptions)
    (st st1 st2 st3 st4 st5 st6 : AsyncDiskMmapFileMut) (max_sz : Nat) :
    (AsyncDiskMmapFileMut.is_cow st = true ↔ st.typ = MmapFileMutType.Cow) ∧
    ((AsyncDiskMmapFileMut.create_in env fs path o).val = Except.ok st1 →
      st1.typ = MmapFileMutType.Normal) ∧
    ((AsyncDiskMmapFileMut.open_in env fs path o).val = Except.ok st2 →
      st2.typ = MmapFileMutType.Normal) ∧
    ((AsyncDiskMmapFileMut.open_exist_in env fs path o).val = Except.ok st3 →
      st3.typ = MmapFileMutType.Normal) ∧
    ((AsyncDiskMmapFileMut.open_cow_in env fs path o).val = Except.ok st4 →
      st4.typ = MmapFileMutType.Cow) ∧
    ((AsyncDiskMmapFileMut.truncateNotLinux env fs st max_sz).val =
        Except.ok st5 →
      st5.typ = st.typ ∧
      Event.mapCall st.file.hpath st.typ.mapMode max_sz ∈
        (AsyncDiskMmapFileMut.truncateNotLinux env fs st max_sz).trace) ∧
    ((AsyncDiskMmapFileMut.truncateLinux env fs st max_sz).val =
        Except.ok st6 →
      st6.typ = st.typ ∧
      Event.mapCall st.file.hpath st.typ.mapMode max_sz ∈
        (AsyncDiskMmapFileMut.truncateLinux env fs st max_sz).trace) := by
  refine ⟨?_, ?_, ?_, ?_, ?_, ?_, ?_⟩
  · simp [AsyncDiskMmapFileMut.is_cow, beq_iff_eq]
  · intro hok
    simp only [AsyncDiskMmapFileMut.create_in, preallocate, mapFileRaw] at hok
    repeat' split at hok
    all_goals simp_all
    all_goals (try rw [← hok])
  · intro hok
    simp only [AsyncDiskMmapFileMut.open_in, mapFileRaw] at hok
    repeat' split at hok
    all_goals simp_all
    all_goals (try rw [← hok])
  · intro hok
    simp only [AsyncDiskMmapFileMut.open_exist_in, preallocate,
      mapFileRaw] at hok
    repeat' split at hok
    all_goals simp_all
    all_goals (try rw [← hok])
  · intro hok
    simp only [AsyncDiskMmapFileMut.open_cow_in, preallocate,
      mapFileRaw] at hok
    repeat' split at hok
    all_goals simp_all
    all_goals (try rw [← hok])
  · intro hok
    constructor
    · by_cases h0 : 0 < st.mmap.length <;>
        cases hf : env.flushErr st.file.hpath <;>
          cases hs : env.setLenErr st.file.hpath max_sz <;>
            cases hm : env.mapErr st.typ.mapMode <;>
              · simp_all [AsyncDiskMmapFileMut.truncateNotLinux,
                  AsyncDiskMmapFileMut.flush, remmap, mapFileRaw]
                try rw [← hok]
    · by_cases h0 : 0 < st.mmap.length <;>
        cases hf : env.flushErr st.file.hpath <;>
          cases hs : env.setLenErr st.file.hpath max_sz <;>
            cases hm : env.mapErr st.typ.mapMode <;>
              · simp_all [AsyncDiskMmapFileMut.truncateNotLinux,
                  AsyncDiskMmapFileMut.flush, remmap, mapFileRaw, lenAt_setLen]
  · intro hok
    constructor
    · cases hf : env.flushErr st.file.hpath <;>
        cases hs : env.setLenErr st.file.hpath max_sz <;>
          cases hm : env.mapErr st.typ.mapMode <;>
            · simp_all [AsyncDiskMmapFileMut.truncateLinux,
                AsyncDiskMmapFileMut.flush, remmap, mapFileRaw]
              try rw [← hok]
    · cases hf : env.flushErr st.file.hpath <;>
        cases hs : env.setLenErr st.file.hpath max_sz <;>
          cases hm : env.mapErr st.typ.mapMode <;>
            · simp_all [AsyncDiskMmapFileMut.truncateLinux,
                AsyncDiskMmapFileMut.flush, remmap, mapFileRaw, lenAt_setLen]

/-- C10 witness: the theorem at a concrete copy-on-write open and a
concrete linux truncate of a copy-on-write file. -/
theorem is_cow_mode_tag_invariant_witness :
    (⟨[1, 2, 3], ⟨"d/f.txt", true, true⟩, "d/f.txt", none,
        MmapFileMutType.Cow⟩ : AsyncDiskMmapFileMut).typ =
      MmapFileMutType.Cow ∧
    (⟨[1, 2, 3, 0], ⟨"d/f.txt", true, false⟩, "d/f.txt", none,
        MmapFileMutType.Cow⟩ : AsyncDiskMmapFileMut).typ = stCow.typ := by
  constructor
  · exact (is_cow_mode_tag_invariant envOK fs0 "d/f.txt" none st0 st0 st0 st0
      ⟨[1, 2, 3], ⟨"d/f.txt", true, true⟩, "d/f.txt", none,
        MmapFileMutType.Cow⟩ st0 st0 4).2.2.2.2.1 (by rfl)
  · exact ((is_cow_mode_tag_invariant envOK fs0 "d/f.txt" none stCow st0 st0
      st0 st0 st0
      ⟨[1, 2, 3, 0], ⟨"d/f.txt", true, false⟩, "d/f.txt", none,
        MmapFileMutType.Cow⟩ 4).2.2.2.2.2.2 (by rfl)).1

/-- C8: for every width, endianness and signedness, and every offset such
that offset plus the value width stays within the mapped length, a typed
positional write followed by the matching typed read returns exactly the
written value (the unsigned case for the in-range value, the signed
two's-complement case for the in-range signed value). Floating point
values are modelled by their bit patterns, which the byte codec carries
verbatim, so the 4 and 8 byte unsigned cases cover the two float widths. -/
theorem typed_write_read_roundtrip (buf : List Nat) (off w : Nat)
    (en : Endian) (vU : Nat) (vI : Int)
    (h : off + w ≤ buf.length) (hw : 1 ≤ w) (hU : vU < byteCap w)
    (hlo : -((byteCap w / 2 : Nat) : Int) ≤ vI)
    (hhi : vI < ((byteCap w / 2 : Nat) : Int)) :
    Except.bind (writeTypedNat buf off w en vU)
      (fun b => readTypedNat b off w en) = Except.ok vU ∧
    Except.bind (writeTypedInt buf off w en vI)
      (fun b => readTypedInt b off w en) = Except.ok vI :=
  ⟨readback_typedNat buf off w en vU h hU,
    readback_typedInt buf off w en vI h hw hlo hhi⟩

/-- C8 witness: the round trip at a concrete buffer, offset 1, width 2,
big endian, unsigned value 300 and signed value -16. -/
theorem typed_write_read_roundtrip_witness :
    Except.bind (writeTypedNat [0, 0, 0, 0] 1 2 Endian.bigE 300)
      (fun b => readTypedNat b 1 2 Endian.bigE) = Except.ok 300 ∧
    Except.bind (writeTypedInt [0, 0, 0, 0] 1 2 Endian.bigE (-16))
      (fun b => readTypedInt b 1 2 Endian.bigE) = Except.ok (-16) :=
  typed_write_read_roundtrip [0, 0, 0, 0] 1 2 Endian.bigE 300 (-16)
    (by decide) (by decide) (by decide) (by decide) (by decide)

/-- C9: starting from identical mapped bytes, the memory backed and the
file backed variants produce identical observation sequences and identical
final mapped bytes for every sequence of Range I/O Engine operations,
because both variants run the same shared engine step. -/
theorem mem_disk_range_io_equiv (ops : List RangeOp)
    (m : AsyncMemoryMmapFileMut) (d : AsyncDiskMmapFileMut)
    (h : m.mmap = d.mmap) :
    (AsyncMemoryMmapFileMut.runOps m ops).1 =
      (AsyncDiskMmapFileMut.runOps d ops).1 ∧
    (AsyncMemoryMmapFileMut.runOps m ops).2.mmap =
      (AsyncDiskMmapFileMut.runOps d ops).2.mmap := by
  induction ops generalizing m d with
  | nil => exact ⟨rfl, h⟩
  | cons op ops ih =>
    have hstep : stepEngine m.mmap op = stepEngine d.mmap op := by rw [h]
    constructor
    · simp only [AsyncMemoryMmapFileMut.runOps, AsyncDiskMmapFileMut.runOps]
      rw [hstep]
      have h2 := ih { m with mmap := (stepEngine d.mmap op).2 }
        { d with mmap := (stepEngine d.mmap op).2 } rfl
      rw [h2.1]
    · simp only [AsyncMemoryMmapFileMut.runOps, AsyncDiskMmapFileMut.runOps]
      rw [hstep]
      exact (ih { m with mmap := (stepEngine d.mmap op).2 }
        { d with mmap := (stepEngine d.mmap op).2 } rfl).2

/-- C9 witness: the equivalence at concrete fixtures with equal bytes and
a concrete operation sequence. -/
theorem mem_disk_range_io_equiv_witness :
    (AsyncMemoryMmapFileMut.runOps m0
      [RangeOp.writeTypedNatOp 0 2 Endian.bigE 300, RangeOp.copyAllOp]).1 =
    (AsyncDiskMmapFileMut.runOps st0
      [RangeOp.writeTypedNatOp 0 2 Endian.bigE 300, RangeOp.copyAllOp]).1 :=
  (mem_disk_range_io_equiv
    [RangeOp.writeTypedNatOp 0 2 Endian.bigE 300, RangeOp.copyAllOp]
    m0 st0 rfl).1
